import Mathlib

/-!
# flowRateDirectedInletVelocity boundary condition

A shallow embedding of `flowRateDirectedInletVelocityFvPatchVectorField`
(files `flowRateDirectedInletVelocityFvPatchVectorField.C` and `.H`).

Scalars are exact rationals in place of floating point.  A patch field is a
list with one entry per face.  Fatal errors of the source (`FatalError`,
`FatalIOError`) are the `Except.error` results of the embedding.  The run is
serial, so the global sum `gSum` is the sum over the faces of the patch.
-/

set_option autoImplicit false

namespace Foam

/-! ## Scalars, vectors and fields -/

/-- The `scalar` of the source, taken exact. -/
abbrev scalar := ℚ

/-- The 3-component `vector` of the source. -/
structure vector where
  x : scalar
  y : scalar
  z : scalar
deriving DecidableEq

namespace vector

/-- The zero vector. -/
def zero : vector := ⟨0, 0, 0⟩

/-- Inner product, written `a & b` in the source. -/
def dot (a b : vector) : scalar := a.x * b.x + a.y * b.y + a.z * b.z

/-- Product `a * s` of a vector with a scalar, component by component. -/
def mulS (a : vector) (s : scalar) : vector := ⟨a.x * s, a.y * s, a.z * s⟩

/-- Quotient `a / s` of a vector by a scalar, component by component. -/
def divS (a : vector) (s : scalar) : vector := ⟨a.x / s, a.y / s, a.z / s⟩

/-- Squared magnitude of a vector. -/
def magSqr (a : vector) : scalar := dot a a

/-- The scalar `m` is the magnitude of `a`: non-negative with square `a & a`. -/
def hasMag (a : vector) (m : scalar) : Prop := 0 ≤ m ∧ m * m = magSqr a

instance (a : vector) (m : scalar) : Decidable (hasMag a m) := by
  unfold hasMag; infer_instance

end vector

/-- A `scalarField`: one scalar per face. -/
abbrev scalarField := List scalar

/-- A `vectorField`: one vector per face. -/
abbrev vectorField := List vector

/-- Field inner product `a & b`, face by face. -/
def dotField (a b : vectorField) : scalarField := List.zipWith vector.dot a b

/-- Field quotient `a / s` of a vector field by a scalar field, face by face. -/
def divField (a : vectorField) (s : scalarField) : vectorField :=
  List.zipWith vector.divS a s

/-- Field product `a * s` with one scalar. -/
def mulScalar (a : vectorField) (s : scalar) : vectorField :=
  a.map (fun v => v.mulS s)

/-- Field quotient `a / s` by one scalar. -/
def divScalar (a : vectorField) (s : scalar) : vectorField :=
  a.map (fun v => v.divS s)

/-- Sum of a scalar field over the patch (`gSum` of a serial run). -/
def gSum (a : scalarField) : scalar := a.sum

/-! ## Host collaborators -/

/-- Modelled from the spec: the flow-rate function `Function1<scalar>` of the
host library, a pure function of time with `value(t)`. -/
structure Function1 where
  value : scalar → scalar

/-- The constant flow-rate function. -/
def Function1.constant (Q : scalar) : Function1 := ⟨fun _ => Q⟩

/-- One face of the patch: its outward normal `nf` and area magnitude `magSf`. -/
structure face where
  nf : vector
  magSf : scalar
deriving DecidableEq

/-- Modelled from the spec: the patch geometry supplied by the host, one
record per face. -/
abbrev fvPatch := List face

/-- The field `patch().nf()`. -/
def fvPatch.nf (p : fvPatch) : vectorField := p.map face.nf

/-- The field `patch().magSf()`. -/
def fvPatch.magSf (p : fvPatch) : scalarField := p.map face.magSf

/-- Modelled from the spec: the host registry `db()`: the current output time
and the lookup of a named density field on the patch (`none` when
`foundObject` is false). -/
structure objectRegistry where
  timeOutputValue : scalar
  lookupPatchField : String → Option scalarField

/-- Modelled from the spec: the host-parsed key/value configuration of the
boundary condition; an absent key is `none`, and a field entry is the per-face
list the host reader delivers for the patch. -/
structure dictionary where
  volumetricFlowRate : Option Function1
  massFlowRate : Option Function1
  rho : Option String
  rhoInlet : Option scalar
  inletDirection : Option vectorField
  value : Option vectorField

/-- The fatal errors of the source. -/
inductive FatalError where
  /-- Error `FatalIOError` of the constructor: neither flow-rate key supplied. -/
  | supplyFlowRate
  /-- Error `FatalError` of `updateCoeffs`: density field not registered and no
  constant density. -/
  | noDensity (rhoName : String)
  /-- Error `FatalIOError` of the host reader: a mandatory keyword is absent. -/
  | keywordNotFound (key : String)
deriving DecidableEq

/-! ## The boundary condition -/

/-- The private data of the class, with the value field and the `updated`
flag of its `fixedValueFvPatchVectorField` base. -/
structure flowRateDirectedInletVelocityFvPatchVectorField where
  /-- Value field of the base class. -/
  value : vectorField
  /-- Flag `updated_` of the base class. -/
  updated : Bool
  flowRate_ : Function1
  volumetric_ : Bool
  rhoName_ : String
  rhoInlet_ : scalar
  inletDir_ : vectorField

namespace flowRateDirectedInletVelocityFvPatchVectorField

/-- Member `updateCoeffs` (lines 176-223 of the `.C` file).  `operator==`
assigns the value field; the closing call of the base `updateCoeffs` sets
`updated_`. -/
def updateCoeffs (p : fvPatch) (db : objectRegistry)
    (self : flowRateDirectedInletVelocityFvPatchVectorField) :
    Except FatalError flowRateDirectedInletVelocityFvPatchVectorField :=
  if self.updated then
    .ok self
  else
    let t := db.timeOutputValue
    let n := p.nf
    let nd := dotField n self.inletDir_
    let avgU := - self.flowRate_.value t / gSum p.magSf
    if self.volumetric_ || self.rhoName_ == "none" then
      .ok { self with
        value := mulScalar (divField self.inletDir_ nd) avgU, updated := true }
    else
      match db.lookupPatchField self.rhoName_ with
      | some rhop =>
        .ok { self with
          value := divField (mulScalar (divField self.inletDir_ nd) avgU) rhop,
          updated := true }
      | none =>
        if self.rhoInlet_ < 0 then
          .error (.noDensity self.rhoName_)
        else
          .ok { self with
            value :=
              divScalar (mulScalar (divField self.inletDir_ nd) avgU) self.rhoInlet_,
            updated := true }

/-- The `evaluate` of the base class: update unless already updated, then
clear the flag. -/
def evaluate (p : fvPatch) (db : objectRegistry)
    (self : flowRateDirectedInletVelocityFvPatchVectorField) :
    Except FatalError flowRateDirectedInletVelocityFvPatchVectorField :=
  match updateCoeffs p db self with
  | .error e => .error e
  | .ok s => .ok { s with updated := false }

/-- Constructor from patch, internal field and dictionary (lines 70-115).
`VGREAT` is the host constant whose negation marks an unset `rhoInlet`.  The
member initialisers read `rhoInlet` and the mandatory `inletDirection` before
the body looks for the flow-rate keys. -/
def fromDict (VGREAT : scalar) (p : fvPatch) (db : objectRegistry)
    (dict : dictionary) :
    Except FatalError flowRateDirectedInletVelocityFvPatchVectorField :=
  let rhoInlet := dict.rhoInlet.getD (-VGREAT)
  match dict.inletDirection with
  | none => .error (.keywordNotFound "inletDirection")
  | some inletDir =>
    let value0 : vectorField := List.replicate p.length vector.zero
    let afterKeys : Except FatalError flowRateDirectedInletVelocityFvPatchVectorField :=
      match dict.volumetricFlowRate with
      | some f =>
        .ok { value := value0, updated := false, flowRate_ := f, volumetric_ := true,
              rhoName_ := "rho", rhoInlet_ := rhoInlet, inletDir_ := inletDir }
      | none =>
        match dict.massFlowRate with
        | some f =>
          .ok { value := value0, updated := false, flowRate_ := f, volumetric_ := false,
                rhoName_ := dict.rho.getD "rho", rhoInlet_ := rhoInlet,
                inletDir_ := inletDir }
        | none => .error .supplyFlowRate
    match afterKeys with
    | .error e => .error e
    | .ok s =>
      match dict.value with
      | some v => .ok { s with value := v }
      | none => evaluate p db s

/-- Member `write` (lines 226-237): the entries emitted.  The flow-rate
function writes itself under the keyword it was read from, which is
`volumetricFlowRate` for a volumetric object and `massFlowRate` otherwise;
`writeEntryIfDifferent` omits an entry equal to its default.  The `type`
entry of the base class is not read by the constructor and is left out. -/
def write (VGREAT : scalar) (self : flowRateDirectedInletVelocityFvPatchVectorField) :
    dictionary :=
  { volumetricFlowRate := if self.volumetric_ then some self.flowRate_ else none
    massFlowRate := if self.volumetric_ then none else some self.flowRate_
    rho :=
      if !self.volumetric_ then
        (if self.rhoName_ == "rho" then none else some self.rhoName_)
      else none
    rhoInlet :=
      if !self.volumetric_ then
        (if self.rhoInlet_ == -VGREAT then none else some self.rhoInlet_)
      else none
    inletDirection := some self.inletDir_
    value := some self.value }

end flowRateDirectedInletVelocityFvPatchVectorField

/-- Modelled from the spec: `resizeToMap` of a per-face field, the host
`Field::autoMap`.  The mapping lists, for each new face, the old face it draws
from, or `none` for a face without prior value, which receives the default
`dflt` supplied by the caller. -/
def resizeToMap (mapping : List (Option Nat)) (old : vectorField) (dflt : vector) :
    vectorField :=
  mapping.map (fun m =>
    match m with
    | some j => old.getD j dflt
    | none => dflt)

/-- Member `autoMap` (lines 151-158): the base class remaps the value field,
then the direction field is remapped with the same mapper, the zero vector
being the default. -/
def flowRateDirectedInletVelocityFvPatchVectorField.autoMap
    (m : List (Option Nat)) (self : flowRateDirectedInletVelocityFvPatchVectorField) :
    flowRateDirectedInletVelocityFvPatchVectorField :=
  { self with
    value := resizeToMap m self.value vector.zero,
    inletDir_ := resizeToMap m self.inletDir_ vector.zero }

/-- The identity mapping on `n` faces: new face `i` draws from old face `i`. -/
def identityMap (n : Nat) : List (Option Nat) :=
  (List.range n).map (fun i => some i)

/-- The mapping from `m - 1` new faces that drops old face `k` of `m` and
shifts the rest. -/
def dropFaceMap (m k : Nat) : List (Option Nat) :=
  (List.range (m - 1)).map (fun i => some (if i < k then i else i + 1))

/-! ## Measured quantities -/

/-- The flux `sum_i rho_i * (U_i & n_i) * A_i` of a velocity field `U` through
the patch, weighted by the density `rho`. -/
def massFlux (p : fvPatch) (rho : scalarField) (U : vectorField) : scalar :=
  gSum (List.zipWith (fun r q => r * q) rho
    (List.zipWith (fun (f : face) (u : vector) => u.dot f.nf * f.magSf) p U))

/-- The volumetric flux `sum_i (U_i & n_i) * A_i` through the patch. -/
def volFlux (p : fvPatch) (U : vectorField) : scalar :=
  gSum (List.zipWith (fun (f : face) (u : vector) => u.dot f.nf * f.magSf) p U)

/-- The value field left by a call, or its fatal error. -/
def resolved (r : Except FatalError flowRateDirectedInletVelocityFvPatchVectorField) :
    Except FatalError vectorField :=
  match r with
  | .error e => .error e
  | .ok s => .ok s.value

open flowRateDirectedInletVelocityFvPatchVectorField

/-- The velocity the source writes on a face with direction `d`:
`(d / (n & d)) * avgU`. -/
def faceU (avgU : scalar) (d : vector) (f : face) : vector :=
  (d.divS (f.nf.dot d)).mulS avgU

/-- The flux-normalising scalar `avgU` of line 189. -/
def avgU (p : fvPatch) (db : objectRegistry)
    (self : flowRateDirectedInletVelocityFvPatchVectorField) : scalar :=
  - self.flowRate_.value db.timeOutputValue / gSum p.magSf

/-- The velocity resolved on face `i`, when the call succeeded and the face
exists. -/
def faceValue (r : Except FatalError vectorField) (i : Nat) : Option vector :=
  match r with
  | .ok U => U[i]?
  | .error _ => none

/-! ## Concrete inputs -/

/-- The host constant `VGREAT` of a double-precision build. -/
def exVGREAT : scalar := 10 ^ 300

/-- A unit normal. -/
def exN : vector := ⟨3 / 5, 4 / 5, 0⟩

/-- A flat patch of two faces with normal `exN` and areas 2 and 3. -/
def exFlat : fvPatch := [⟨exN, 2⟩, ⟨exN, 3⟩]

/-- A patch of two faces with different normals, not of unit length. -/
def exBent : fvPatch := [⟨⟨1, 0, 0⟩, 2⟩, ⟨⟨0, 2, 0⟩, 3⟩]

/-- A registry at time 0 without any density field. -/
def exDb : objectRegistry := ⟨0, fun _ => none⟩

/-- A registry at time 0 whose field `rho` is uniformly 2 on two faces. -/
def exDbRho : objectRegistry :=
  ⟨0, fun name => if name = "rho" then some (List.replicate 2 2) else none⟩

/-- A volumetric object with constant flow rate `Q` and direction `exN` on two
faces, not yet updated. -/
def exVol (Q : scalar) : flowRateDirectedInletVelocityFvPatchVectorField :=
  { value := [], updated := false, flowRate_ := Function1.constant Q, volumetric_ := true,
    rhoName_ := "rho", rhoInlet_ := -exVGREAT, inletDir_ := [exN, exN] }

/-- A mass-based object with constant flow rate `Q`, density name `name`,
constant density `rhoInlet` and direction `exN` on two faces, not yet
updated. -/
def exMass (Q : scalar) (name : String) (rhoInlet : scalar) :
    flowRateDirectedInletVelocityFvPatchVectorField :=
  { value := [], updated := false, flowRate_ := Function1.constant Q, volumetric_ := false,
    rhoName_ := name, rhoInlet_ := rhoInlet, inletDir_ := [exN, exN] }

/-- A volumetric object with flow rate 6 whose directions are oblique to the
normals of `exBent`. -/
def exSkew : flowRateDirectedInletVelocityFvPatchVectorField :=
  { value := [], updated := false, flowRate_ := Function1.constant 6, volumetric_ := true,
    rhoName_ := "rho", rhoInlet_ := -exVGREAT, inletDir_ := [⟨1, 1, 0⟩, ⟨1, 1, 0⟩] }

/-- The state `exVol 6` after its first update on `exFlat`. -/
def exVolDone : flowRateDirectedInletVelocityFvPatchVectorField :=
  { value := [⟨-18 / 25, -24 / 25, 0⟩, ⟨-18 / 25, -24 / 25, 0⟩], updated := true,
    flowRate_ := Function1.constant 6, volumetric_ := true,
    rhoName_ := "rho", rhoInlet_ := -exVGREAT, inletDir_ := [exN, exN] }

/-- A mass-based dictionary that sets `rhoInlet` to `-1`. -/
def exDictNeg : dictionary :=
  { volumetricFlowRate := none, massFlowRate := some (Function1.constant 6), rho := none,
    rhoInlet := some (-1), inletDirection := some [exN, exN],
    value := some [vector.zero, vector.zero] }

/-- The object built from `exDictNeg`. -/
def exBuiltNeg : flowRateDirectedInletVelocityFvPatchVectorField :=
  { value := [vector.zero, vector.zero], updated := false,
    flowRate_ := Function1.constant 6, volumetric_ := false,
    rhoName_ := "rho", rhoInlet_ := -1, inletDir_ := [exN, exN] }

/-- A dictionary that holds both flow-rate keys. -/
def exDictBoth : dictionary :=
  { volumetricFlowRate := some (Function1.constant 6),
    massFlowRate := some (Function1.constant 7), rho := some "rhoGas",
    rhoInlet := none, inletDirection := some [exN, exN],
    value := some [vector.zero, vector.zero] }

/-- The object built from `exDictBoth`. -/
def exBuiltBoth : flowRateDirectedInletVelocityFvPatchVectorField :=
  { value := [vector.zero, vector.zero], updated := false,
    flowRate_ := Function1.constant 6, volumetric_ := true,
    rhoName_ := "rho", rhoInlet_ := -exVGREAT, inletDir_ := [exN, exN] }

/-- A dictionary without any flow-rate key. -/
def exDictNone : dictionary :=
  { volumetricFlowRate := none, massFlowRate := none, rho := none,
    rhoInlet := none, inletDirection := some [exN, exN], value := none }

/-- A mass-based dictionary with `rhoInlet 2` and without `value`. -/
def exDictMass : dictionary :=
  { volumetricFlowRate := none, massFlowRate := some (Function1.constant 6), rho := none,
    rhoInlet := some 2, inletDirection := some [exN, exN], value := none }

/-- The object built from `exDictMass` on `exFlat` without density field. -/
def exBuiltMass : flowRateDirectedInletVelocityFvPatchVectorField :=
  { value := [⟨-9 / 25, -12 / 25, 0⟩, ⟨-9 / 25, -12 / 25, 0⟩], updated := false,
    flowRate_ := Function1.constant 6, volumetric_ := false,
    rhoName_ := "rho", rhoInlet_ := 2, inletDir_ := [exN, exN] }

/-- The object `exBuiltMass` holding another value field when written. -/
def exWritten : flowRateDirectedInletVelocityFvPatchVectorField :=
  { exBuiltMass with value := [exN, exN] }

/-- A direction field of three different vectors on a volumetric object. -/
def exThree : flowRateDirectedInletVelocityFvPatchVectorField :=
  { value := [vector.zero, vector.zero, vector.zero], updated := false,
    flowRate_ := Function1.constant 6, volumetric_ := true,
    rhoName_ := "rho", rhoInlet_ := -exVGREAT,
    inletDir_ := [⟨1, 1, 0⟩, ⟨0, 1, 1⟩, ⟨1, 0, 1⟩] }

/-! ## Per-face form of the resolved velocity -/

theorem volField_eq (p : fvPatch) (dir : vectorField) (avgU : scalar) :
    mulScalar (divField dir (dotField p.nf dir)) avgU
      = List.zipWith (faceU avgU) dir p := by
  induction dir generalizing p with
  | nil => simp [mulScalar, divField, dotField]
  | cons d ds ih =>
    cases p with
    | nil => simp [mulScalar, divField, dotField, fvPatch.nf]
    | cons f fs =>
      have h := ih fs
      simp only [mulScalar, divField, dotField, fvPatch.nf] at h ⊢
      simp only [List.map_cons, List.zipWith_cons_cons, List.cons.injEq]
      exact ⟨rfl, h⟩

theorem faceU_dot (avgU : scalar) (d : vector) (f : face) (h : f.nf.dot d ≠ 0) :
    (faceU avgU d f).dot f.nf = avgU := by
  simp only [faceU, vector.dot, vector.mulS, vector.divS] at h ⊢
  field_simp
  ring

theorem sum_zipWith_const (p : fvPatch) (U : vectorField) (c : scalar)
    (hU : U.length = p.length)
    (h : ∀ i (hp : i < p.length) (hu : i < U.length), U[i].dot p[i].nf = c) :
    volFlux p U = c * gSum p.magSf := by
  induction p generalizing U with
  | nil => simp [volFlux, gSum, fvPatch.magSf]
  | cons f fs ih =>
    cases U with
    | nil => simp at hU
    | cons u us =>
      have h0 := h 0 (by simp) (by simp)
      have ht := ih us (by simpa using hU) (fun i hp hu => by
        have := h (i + 1) (by simpa using hp) (by simpa using hu)
        simpa using this)
      simp only [volFlux, gSum, fvPatch.magSf, List.zipWith_cons_cons, List.sum_cons,
        List.map_cons] at ht ⊢
      simp only [List.getElem_cons_zero] at h0
      rw [ht, h0]; ring


theorem massFlux_const (p : fvPatch) (rho : scalarField) (U : vectorField) (c : scalar)
    (hU : U.length = p.length) (hr : rho.length = p.length)
    (h : ∀ i (hp : i < p.length) (hu : i < U.length) (hr : i < rho.length),
      rho[i] * U[i].dot p[i].nf = c) :
    massFlux p rho U = c * gSum p.magSf := by
  induction p generalizing U rho with
  | nil => simp [massFlux, gSum, fvPatch.magSf]
  | cons f fs ih =>
    cases U with
    | nil => simp at hU
    | cons u us =>
      cases rho with
      | nil => simp at hr
      | cons r rs =>
        have h0 := h 0 (by simp) (by simp) (by simp)
        have ht := ih rs us (by simpa using hU) (by simpa using hr) (fun i hp hu hr => by
          have := h (i + 1) (by simpa using hp) (by simpa using hu) (by simpa using hr)
          simpa using this)
        simp only [massFlux, gSum, fvPatch.magSf, List.zipWith_cons_cons, List.sum_cons,
          List.map_cons] at ht ⊢
        simp only [List.getElem_cons_zero] at h0
        rw [ht, ← h0]; ring

theorem updateCoeffs_of_updated (p : fvPatch) (db : objectRegistry)
    (s : flowRateDirectedInletVelocityFvPatchVectorField) (h : s.updated = true) :
    updateCoeffs p db s = .ok s := by
  simp [updateCoeffs, h]

theorem updateCoeffs_vol (p : fvPatch) (db : objectRegistry)
    (s : flowRateDirectedInletVelocityFvPatchVectorField) (hu : s.updated = false)
    (hm : s.volumetric_ = true ∨ s.rhoName_ = "none") :
    updateCoeffs p db s
      = .ok { s with
          value := List.zipWith (faceU (avgU p db s)) s.inletDir_ p, updated := true } := by
  have hc : (s.volumetric_ || s.rhoName_ == "none") = true := by
    rcases hm with h | h <;> simp [h]
  simp only [updateCoeffs, hu, hc, volField_eq, avgU]
  simp

theorem updateCoeffs_found (p : fvPatch) (db : objectRegistry)
    (s : flowRateDirectedInletVelocityFvPatchVectorField) (rhop : scalarField)
    (hu : s.updated = false) (hv : s.volumetric_ = false) (hn : s.rhoName_ ≠ "none")
    (hf : db.lookupPatchField s.rhoName_ = some rhop) :
    updateCoeffs p db s
      = .ok { s with
          value := divField (List.zipWith (faceU (avgU p db s)) s.inletDir_ p) rhop,
          updated := true } := by
  have hc : (s.volumetric_ || s.rhoName_ == "none") = false := by simp [hv, hn]
  simp only [updateCoeffs, hu, hc, volField_eq, avgU, hf]
  simp

theorem updateCoeffs_const (p : fvPatch) (db : objectRegistry)
    (s : flowRateDirectedInletVelocityFvPatchVectorField)
    (hu : s.updated = false) (hv : s.volumetric_ = false) (hn : s.rhoName_ ≠ "none")
    (hf : db.lookupPatchField s.rhoName_ = none) (hr : 0 ≤ s.rhoInlet_) :
    updateCoeffs p db s
      = .ok { s with
          value := divScalar (List.zipWith (faceU (avgU p db s)) s.inletDir_ p) s.rhoInlet_,
          updated := true } := by
  have hc : (s.volumetric_ || s.rhoName_ == "none") = false := by simp [hv, hn]
  have hr' : ¬ s.rhoInlet_ < 0 := not_lt.mpr hr
  simp only [updateCoeffs, hu, hc, volField_eq, avgU, hf, hr']
  simp

theorem updateCoeffs_noDensity (p : fvPatch) (db : objectRegistry)
    (s : flowRateDirectedInletVelocityFvPatchVectorField)
    (hu : s.updated = false) (hv : s.volumetric_ = false) (hn : s.rhoName_ ≠ "none")
    (hf : db.lookupPatchField s.rhoName_ = none) (hr : s.rhoInlet_ < 0) :
    updateCoeffs p db s = .error (.noDensity s.rhoName_) := by
  have hc : (s.volumetric_ || s.rhoName_ == "none") = false := by simp [hv, hn]
  simp only [updateCoeffs, hu, hc, hf, hr]
  simp


theorem divS_dot (v n : vector) (r : scalar) : (v.divS r).dot n = v.dot n / r := by
  simp only [vector.dot, vector.divS]
  ring

theorem faceU_getElem_dot (p : fvPatch) (dir : vectorField) (a : scalar)
    (hnd : ∀ i (hp : i < p.length) (hd : i < dir.length), p[i].nf.dot dir[i] ≠ 0)
    (i : Nat) (hp : i < p.length) (hv : i < (List.zipWith (faceU a) dir p).length) :
    (List.zipWith (faceU a) dir p)[i].dot p[i].nf = a := by
  have hd : i < dir.length := by
    simp only [List.length_zipWith] at hv; omega
  rw [List.getElem_zipWith]
  exact faceU_dot a dir[i] p[i] (hnd i hp hd)

/-- C10: for a patch of non-zero total area, any normals and any direction
field with `n_i & d_i ≠ 0` on every face, the velocity written by
`updateCoeffs` has normal component `-Q / totalArea` on every face in
volumetric or `rho none` mode and `-Q / (totalArea * rho_i)` in mass mode
with non-zero density (found field or constant `rhoInlet`), and the aggregate
flux `sum rho_i * (U_i & n_i) * A_i` is `-Q`. -/
theorem updateCoeffs_flux_any_direction (p : fvPatch) (db : objectRegistry)
    (s : flowRateDirectedInletVelocityFvPatchVectorField)
    (hu : s.updated = false)
    (hlen : s.inletDir_.length = p.length)
    (hA : gSum p.magSf ≠ 0)
    (hnd : ∀ i (hp : i < p.length) (hd : i < s.inletDir_.length),
      p[i].nf.dot s.inletDir_[i] ≠ 0) :
    ((s.volumetric_ = true ∨ s.rhoName_ = "none") →
      ∃ s1, updateCoeffs p db s = .ok s1 ∧ s1.value.length = p.length ∧
        (∀ i (hp : i < p.length) (hv : i < s1.value.length),
          s1.value[i].dot p[i].nf
            = - s.flowRate_.value db.timeOutputValue / gSum p.magSf) ∧
        volFlux p s1.value = - s.flowRate_.value db.timeOutputValue) ∧
    (s.volumetric_ = false → s.rhoName_ ≠ "none" →
      ∀ rhop, db.lookupPatchField s.rhoName_ = some rhop → rhop.length = p.length →
        (∀ r ∈ rhop, r ≠ 0) →
      ∃ s1, updateCoeffs p db s = .ok s1 ∧ s1.value.length = p.length ∧
        (∀ i (hp : i < p.length) (hv : i < s1.value.length) (hr : i < rhop.length),
          s1.value[i].dot p[i].nf
            = - s.flowRate_.value db.timeOutputValue / (gSum p.magSf * rhop[i])) ∧
        massFlux p rhop s1.value = - s.flowRate_.value db.timeOutputValue) ∧
    (s.volumetric_ = false → s.rhoName_ ≠ "none" →
      db.lookupPatchField s.rhoName_ = none → 0 < s.rhoInlet_ →
      ∃ s1, updateCoeffs p db s = .ok s1 ∧ s1.value.length = p.length ∧
        (∀ i (hp : i < p.length) (hv : i < s1.value.length),
          s1.value[i].dot p[i].nf
            = - s.flowRate_.value db.timeOutputValue / (gSum p.magSf * s.rhoInlet_)) ∧
        massFlux p (List.replicate p.length s.rhoInlet_) s1.value
          = - s.flowRate_.value db.timeOutputValue) := by
  have hQ : avgU p db s * gSum p.magSf = - s.flowRate_.value db.timeOutputValue := by
    unfold avgU; field_simp
  refine ⟨fun hm => ?_, fun hv hn rhop hf hrl hr0 => ?_, fun hv hn hf hr => ?_⟩
  · refine ⟨_, updateCoeffs_vol p db s hu hm, ?_, ?_, ?_⟩
    · simp [hlen]
    · intro i hp hv
      exact faceU_getElem_dot p s.inletDir_ _ hnd i hp hv
    · rw [← hQ]
      exact sum_zipWith_const p _ _ (by simp [hlen])
        (fun i hp hv => faceU_getElem_dot p s.inletDir_ _ hnd i hp hv)
  · have hpt : ∀ i (hp : i < p.length)
        (hv : i < (divField (List.zipWith (faceU (avgU p db s)) s.inletDir_ p) rhop).length)
        (hr : i < rhop.length),
        (divField (List.zipWith (faceU (avgU p db s)) s.inletDir_ p) rhop)[i].dot p[i].nf
          = avgU p db s / rhop[i] := by
      intro i hp hv hr
      have hd : i < s.inletDir_.length := by omega
      simp only [divField, List.getElem_zipWith, divS_dot]
      rw [faceU_dot _ _ _ (hnd i hp hd)]
    refine ⟨_, updateCoeffs_found p db s rhop hu hv hn hf, ?_, ?_, ?_⟩
    · simp [divField, hlen, hrl]
    · intro i hp hv hr
      show (divField (List.zipWith (faceU (avgU p db s)) s.inletDir_ p) rhop)[i].dot p[i].nf = _
      rw [hpt i hp hv hr, avgU, div_div]
    · rw [← hQ]
      refine massFlux_const p rhop _ _ (by simp [divField, hlen, hrl]) hrl ?_
      intro i hp hv hr
      have hne : rhop[i] ≠ 0 := hr0 _ (List.getElem_mem _)
      show rhop[i] * (divField (List.zipWith (faceU (avgU p db s)) s.inletDir_ p) rhop)[i].dot
        p[i].nf = _
      rw [hpt i hp hv hr]
      field_simp
  · have hpt : ∀ i (hp : i < p.length)
        (hv : i < (divScalar (List.zipWith (faceU (avgU p db s)) s.inletDir_ p)
          s.rhoInlet_).length),
        (divScalar (List.zipWith (faceU (avgU p db s)) s.inletDir_ p) s.rhoInlet_)[i].dot
          p[i].nf = avgU p db s / s.rhoInlet_ := by
      intro i hp hv
      have hd : i < s.inletDir_.length := by omega
      simp only [divScalar, List.getElem_map, List.getElem_zipWith, divS_dot]
      rw [faceU_dot _ _ _ (hnd i hp hd)]
    refine ⟨_, updateCoeffs_const p db s hu hv hn hf hr.le, ?_, ?_, ?_⟩
    · simp [divScalar, hlen]
    · intro i hp hv
      show (divScalar (List.zipWith (faceU (avgU p db s)) s.inletDir_ p) s.rhoInlet_)[i].dot
        p[i].nf = _
      rw [hpt i hp hv, avgU, div_div]
    · rw [← hQ]
      refine massFlux_const p _ _ _ (by simp [divScalar, hlen]) (by simp) ?_
      intro i hp hv hr'
      show (List.replicate p.length s.rhoInlet_)[i] *
        (divScalar (List.zipWith (faceU (avgU p db s)) s.inletDir_ p) s.rhoInlet_)[i].dot
        p[i].nf = _
      rw [hpt i hp hv, List.getElem_replicate]
      have := hr.ne'
      field_simp


/-! ## Flat patch with the direction along the normal -/

theorem flat_value (p : fvPatch) (n : vector) (a : scalar)
    (hn : ∀ f ∈ p, f.nf = n) (h1 : n.dot n = 1) :
    List.zipWith (faceU a) (List.replicate p.length n) p
      = List.replicate p.length (n.mulS a) := by
  induction p with
  | nil => simp
  | cons f fs ih =>
    have hf : f.nf = n := hn f (by simp)
    have ht := ih (fun g hg => hn g (by simp [hg]))
    simp only [List.length_cons, List.replicate_succ, List.zipWith_cons_cons, ht,
      List.cons.injEq, and_true]
    simp only [faceU, hf, h1, vector.divS, vector.mulS, div_one]

theorem mulS_dot (n : vector) (a : scalar) : (n.mulS a).dot n = a * n.dot n := by
  simp only [vector.dot, vector.mulS]
  ring

theorem mulS_magSqr (n : vector) (a : scalar) : (n.mulS a).magSqr = a * a * n.dot n := by
  simp only [vector.magSqr, vector.dot, vector.mulS]
  ring

theorem divS_magSqr (v : vector) (r : scalar) : (v.divS r).magSqr = v.magSqr / (r * r) := by
  simp only [vector.magSqr, vector.dot, vector.divS]
  by_cases h : r = 0
  · simp [h]
  · field_simp

theorem flat_getElem_dot (p : fvPatch) (n v : vector) (c : scalar)
    (hn : ∀ f ∈ p, f.nf = n) (hv : v.dot n = c)
    (i : Nat) (hp : i < p.length) (hu : i < (List.replicate p.length v).length) :
    (List.replicate p.length v)[i].dot p[i].nf = c := by
  rw [List.getElem_replicate, hn _ (List.getElem_mem _), hv]

/-- C1 (amended): on a non-empty flat patch with unit normal `n`, direction
field `d_i = n`, positive total area and constant flow rate `Q`, a volumetric
`updateCoeffs` writes `n * (-Q / totalArea)` on every face, a velocity of
magnitude `|Q| / totalArea`, and the flux `sum (U_i & n_i) * A_i` is `-Q`. -/
theorem updateCoeffs_volumetric_flat (p : fvPatch) (db : objectRegistry)
    (s : flowRateDirectedInletVelocityFvPatchVectorField) (n : vector) (Q : scalar)
    (hne : p ≠ [])
    (hn : ∀ f ∈ p, f.nf = n) (h1 : n.dot n = 1)
    (hd : s.inletDir_ = List.replicate p.length n)
    (hA : 0 < gSum p.magSf)
    (hQ : s.flowRate_ = Function1.constant Q)
    (hvol : s.volumetric_ = true) (hu : s.updated = false) :
    ∃ s1, updateCoeffs p db s = .ok s1 ∧ s1.value.length = p.length ∧
      (∀ u ∈ s1.value, u = n.mulS (-Q / gSum p.magSf)) ∧
      (∀ u ∈ s1.value, u.hasMag (|Q| / gSum p.magSf)) ∧
      volFlux p s1.value = -Q := by
  have _ := hne
  have ha : avgU p db s = -Q / gSum p.magSf := by simp [avgU, hQ, Function1.constant]
  have hval : List.zipWith (faceU (avgU p db s)) s.inletDir_ p
      = List.replicate p.length (n.mulS (-Q / gSum p.magSf)) := by
    rw [hd, ha]; exact flat_value p n _ hn h1
  refine ⟨_, updateCoeffs_vol p db s hu (Or.inl hvol), ?_, ?_, ?_, ?_⟩
  · simp [hval]
  · intro u hm
    simp only [hval] at hm
    exact List.eq_of_mem_replicate hm
  · intro u hm
    simp only [hval] at hm
    rw [List.eq_of_mem_replicate hm]
    refine ⟨div_nonneg (abs_nonneg Q) hA.le, ?_⟩
    rw [mulS_magSqr, h1, div_mul_div_comm, abs_mul_abs_self]
    ring
  · simp only [hval]
    have := sum_zipWith_const p (List.replicate p.length (n.mulS (-Q / gSum p.magSf)))
      (-Q / gSum p.magSf) (by simp)
      (fun i hp hv => flat_getElem_dot p n _ _ hn (by rw [mulS_dot, h1, mul_one]) i hp hv)
    rw [this]
    field_simp

/-- C2 (amended): on a non-empty flat patch with unit normal `n`, direction
field `d_i = n`, positive total area and constant flow rate `Q`, a mass-based
`updateCoeffs` whose density field (name other than `none`) is found and is
uniformly `rho > 0` writes `n * (-Q / totalArea) / rho` on every face, a
velocity of magnitude `|Q| / (totalArea * rho)`, and the mass flux
`sum rho * (U_i & n_i) * A_i` is `-Q`. -/
theorem updateCoeffs_mass_flat (p : fvPatch) (db : objectRegistry)
    (s : flowRateDirectedInletVelocityFvPatchVectorField) (n : vector) (Q rho : scalar)
    (hne : p ≠ [])
    (hn : ∀ f ∈ p, f.nf = n) (h1 : n.dot n = 1)
    (hd : s.inletDir_ = List.replicate p.length n)
    (hA : 0 < gSum p.magSf)
    (hQ : s.flowRate_ = Function1.constant Q)
    (hmass : s.volumetric_ = false) (hname : s.rhoName_ ≠ "none")
    (hrho : 0 < rho)
    (hf : db.lookupPatchField s.rhoName_ = some (List.replicate p.length rho))
    (hu : s.updated = false) :
    ∃ s1, updateCoeffs p db s = .ok s1 ∧ s1.value.length = p.length ∧
      (∀ u ∈ s1.value, u = (n.mulS (-Q / gSum p.magSf)).divS rho) ∧
      (∀ u ∈ s1.value, u.hasMag (|Q| / (gSum p.magSf * rho))) ∧
      massFlux p (List.replicate p.length rho) s1.value = -Q := by
  have _ := hne
  have ha : avgU p db s = -Q / gSum p.magSf := by simp [avgU, hQ, Function1.constant]
  have hval : divField (List.zipWith (faceU (avgU p db s)) s.inletDir_ p)
        (List.replicate p.length rho)
      = List.replicate p.length ((n.mulS (-Q / gSum p.magSf)).divS rho) := by
    rw [hd, ha, flat_value p n _ hn h1, divField, List.zipWith_replicate]
    simp
  refine ⟨_, updateCoeffs_found p db s _ hu hmass hname hf, ?_, ?_, ?_, ?_⟩
  · simp [hval]
  · intro u hm
    simp only [hval] at hm
    exact List.eq_of_mem_replicate hm
  · intro u hm
    simp only [hval] at hm
    rw [List.eq_of_mem_replicate hm]
    refine ⟨div_nonneg (abs_nonneg Q) (mul_pos hA hrho).le, ?_⟩
    rw [divS_magSqr, mulS_magSqr, h1, div_mul_div_comm, abs_mul_abs_self]
    have hA0 := hA.ne'
    have hr0 := hrho.ne'
    field_simp
    left
    ring
  · simp only [hval]
    have := massFlux_const p (List.replicate p.length rho)
      (List.replicate p.length ((n.mulS (-Q / gSum p.magSf)).divS rho))
      (-Q / gSum p.magSf) (by simp) (by simp)
      (fun i hp hv hr => by
        rw [List.getElem_replicate, List.getElem_replicate, hn _ (List.getElem_mem _),
          divS_dot, mulS_dot, h1, mul_one]
        have hr0 := hrho.ne'
        field_simp
        ring)
    rw [this]
    field_simp


/-! ## Density fallback, the `none` density name, the update guard -/

theorem divField_replicate (l : vectorField) (k : Nat) (r : scalar) (h : l.length ≤ k) :
    divField l (List.replicate k r) = divScalar l r := by
  induction l generalizing k with
  | nil => simp [divField, divScalar]
  | cons v vs ih =>
    cases k with
    | zero => simp at h
    | succ k =>
      have ht := ih k (by simpa using h)
      simp only [divField, divScalar] at ht ⊢
      simp only [List.replicate_succ, List.zipWith_cons_cons, List.map_cons, ht]

theorem divScalar_faceU (p : fvPatch) (dir : vectorField) (a r : scalar) :
    divScalar (List.zipWith (faceU a) dir p) r
      = List.zipWith (fun d f => ((d.divS (f.nf.dot d)).mulS a).divS r) dir p := by
  induction dir generalizing p with
  | nil => simp [divScalar]
  | cons d ds ih =>
    cases p with
    | nil => simp [divScalar]
    | cons f fs =>
      have ht := ih fs
      simp only [divScalar] at ht ⊢
      simp only [List.zipWith_cons_cons, List.map_cons, ht, faceU]

theorem updateCoeffs_ok_fields (p : fvPatch) (db : objectRegistry)
    (s s1 : flowRateDirectedInletVelocityFvPatchVectorField)
    (h : updateCoeffs p db s = .ok s1) :
    s1 = { s with value := s1.value, updated := s1.updated } ∧
      (s.updated = false → s1.updated = true) := by
  unfold updateCoeffs at h
  split at h
  · cases h
    rename_i hs
    cases s
    simp_all
  · split at h
    · cases h; simp
    · split at h
      · cases h; simp
      · split at h
        · cases h
        · cases h; simp

theorem updateCoeffs_error (p : fvPatch) (db : objectRegistry)
    (s : flowRateDirectedInletVelocityFvPatchVectorField) (e : FatalError)
    (h : updateCoeffs p db s = .error e) :
    e = .noDensity s.rhoName_ ∧ s.updated = false ∧ s.volumetric_ = false ∧
      s.rhoName_ ≠ "none" ∧ db.lookupPatchField s.rhoName_ = none ∧ s.rhoInlet_ < 0 := by
  unfold updateCoeffs at h
  split at h
  · cases h
  · split at h
    · cases h
    · split at h
      · cases h
      · split at h
        · cases h
          simp_all
        · cases h


theorem faceU_scale (a c : scalar) (d : vector) (f : face) (hc : c ≠ 0) :
    faceU a (d.mulS c) f = faceU a d f := by
  have hdot : f.nf.dot (d.mulS c) = f.nf.dot d * c := by
    simp only [vector.dot, vector.mulS]; ring
  simp only [faceU, vector.divS]
  rw [hdot]
  simp only [vector.mulS, mul_div_mul_right _ _ hc]

theorem zipWith_faceU_set (p : fvPatch) (dir : vectorField) (a c : scalar) (i : Nat)
    (d : vector) (hd : dir[i]? = some d) (hc : c ≠ 0) :
    List.zipWith (faceU a) (dir.set i (d.mulS c)) p = List.zipWith (faceU a) dir p := by
  apply List.ext_getElem
  · simp
  · intro j h1 h2
    simp only [List.getElem_zipWith, List.getElem_set]
    split
    · rename_i hij
      subst hij
      have hi : i < dir.length := by
        simp only [List.length_zipWith] at h2; omega
      rw [List.getElem?_eq_getElem hi] at hd
      cases hd
      exact faceU_scale a c _ _ hc
    · rfl

theorem resolved_scale (p : fvPatch) (db : objectRegistry)
    (s : flowRateDirectedInletVelocityFvPatchVectorField) (i : Nat) (c : scalar)
    (d : vector) (hd : s.inletDir_[i]? = some d) (hc : c ≠ 0) :
    resolved (updateCoeffs p db { s with inletDir_ := s.inletDir_.set i (d.mulS c) })
      = resolved (updateCoeffs p db s) := by
  simp only [updateCoeffs, volField_eq, zipWith_faceU_set p s.inletDir_ _ c i d hd hc]
  split
  · rfl
  · split
    · rfl
    · split
      · rfl
      · split <;> rfl

/-- C3 (amended): in mass-based mode with a density name other than `none`
and the named field absent from the registry, every `rhoInlet = rho0 ≥ 0`
gives `velocity_i = (d_i / nd_i) * avgU / rho0`, the velocities computed with
the uniform density `rho0`; the call fails with the missing-density error
exactly when `rhoInlet < 0`, which holds for the unset sentinel `-VGREAT` (as
left by a configuration without `rhoInlet`), and then returns no state. -/
theorem updateCoeffs_fallback_density (p : fvPatch) (db : objectRegistry)
    (s : flowRateDirectedInletVelocityFvPatchVectorField)
    (hmass : s.volumetric_ = false) (hname : s.rhoName_ ≠ "none")
    (habs : db.lookupPatchField s.rhoName_ = none) (hu : s.updated = false) :
    (0 ≤ s.rhoInlet_ →
      resolved (updateCoeffs p db s)
        = .ok (List.zipWith
            (fun d f => ((d.divS (f.nf.dot d)).mulS (avgU p db s)).divS s.rhoInlet_)
            s.inletDir_ p) ∧
      resolved (updateCoeffs p db s)
        = resolved (updateCoeffs p
            { db with
              lookupPatchField := fun _ => some (List.replicate p.length s.rhoInlet_) } s)) ∧
    (updateCoeffs p db s = .error (.noDensity s.rhoName_) ↔ s.rhoInlet_ < 0) ∧
    ((∃ e, updateCoeffs p db s = .error e) ↔ s.rhoInlet_ < 0) ∧
    (∀ VGREAT : scalar, 0 < VGREAT → s.rhoInlet_ = -VGREAT →
      updateCoeffs p db s = .error (.noDensity s.rhoName_)) := by
  have herr : s.rhoInlet_ < 0 → updateCoeffs p db s = .error (.noDensity s.rhoName_) :=
    updateCoeffs_noDensity p db s hu hmass hname habs
  refine ⟨fun h0 => ⟨?_, ?_⟩, ⟨fun h => ?_, herr⟩, ⟨fun h => ?_, fun h => ⟨_, herr h⟩⟩,
    fun V hV hs => herr (by rw [hs]; linarith)⟩
  · rw [updateCoeffs_const p db s hu hmass hname habs h0]
    simp only [resolved, divScalar_faceU]
  · rw [updateCoeffs_const p db s hu hmass hname habs h0,
      updateCoeffs_found p _ s (List.replicate p.length s.rhoInlet_) hu hmass hname rfl]
    simp only [resolved]
    rw [divField_replicate _ _ _ (by simp)]
    rfl
  · exact (updateCoeffs_error p db s _ h).2.2.2.2.2
  · obtain ⟨e, he⟩ := h
    exact (updateCoeffs_error p db s _ he).2.2.2.2.2

/-- C4: with the same time, geometry, direction field and flow-rate values,
`updateCoeffs` on a mass-based object whose density name is `none` leaves the
same per-face velocities as on a volumetric object, for every registry and
every `rhoInlet` on either side, and it does not fail. -/
theorem updateCoeffs_rho_none_eq_volumetric (p : fvPatch) (dbm dbv : objectRegistry)
    (m v : flowRateDirectedInletVelocityFvPatchVectorField)
    (ht : dbm.timeOutputValue = dbv.timeOutputValue)
    (hmass : m.volumetric_ = false) (hnone : m.rhoName_ = "none")
    (hvol : v.volumetric_ = true)
    (hf : ∀ t, m.flowRate_.value t = v.flowRate_.value t)
    (hd : m.inletDir_ = v.inletDir_)
    (hum : m.updated = false) (huv : v.updated = false) :
    resolved (updateCoeffs p dbm m) = resolved (updateCoeffs p dbv v) ∧
    resolved (updateCoeffs p dbm m)
      = .ok (List.zipWith (fun d f => (d.divS (f.nf.dot d)).mulS (avgU p dbm m))
          m.inletDir_ p) := by
  have _ := hmass
  have ha : avgU p dbm m = avgU p dbv v := by simp [avgU, ht, hf]
  rw [updateCoeffs_vol p dbm m hum (Or.inr hnone), updateCoeffs_vol p dbv v huv (Or.inl hvol)]
  constructor
  · simp only [resolved, ha, hd]
  · rfl

/-- C8: a first `updateCoeffs` of a step that returns leaves the flag set and
changes nothing but the value field; a second call on that state returns the
same state for every geometry, time, registry and flow-rate function, so it
evaluates none of them, changes no field and cannot fail. -/
theorem updateCoeffs_idempotent (p : fvPatch) (db : objectRegistry)
    (s s1 : flowRateDirectedInletVelocityFvPatchVectorField)
    (hu : s.updated = false) (h1 : updateCoeffs p db s = .ok s1) :
    s1.updated = true ∧
    s1 = { s with value := s1.value, updated := true } ∧
    (∀ p2 db2, updateCoeffs p2 db2 s1 = .ok s1) ∧
    (∀ p2 db2 f2, updateCoeffs p2 db2 { s1 with flowRate_ := f2 }
      = .ok { s1 with flowRate_ := f2 }) ∧
    (∀ p2 db2, resolved (updateCoeffs p2 db2 s1) = resolved (updateCoeffs p db s)) ∧
    ((s.volumetric_ = true ∨ s.rhoName_ = "none") →
      s1.value = mulScalar (divField s.inletDir_ (dotField p.nf s.inletDir_))
        (- s.flowRate_.value db.timeOutputValue / gSum p.magSf)) ∧
    (s.volumetric_ = false → s.rhoName_ ≠ "none" →
      ∀ rhop, db.lookupPatchField s.rhoName_ = some rhop →
      s1.value = divField (mulScalar (divField s.inletDir_ (dotField p.nf s.inletDir_))
        (- s.flowRate_.value db.timeOutputValue / gSum p.magSf)) rhop) ∧
    (s.volumetric_ = false → s.rhoName_ ≠ "none" →
      db.lookupPatchField s.rhoName_ = none →
      s1.value = divScalar (mulScalar (divField s.inletDir_ (dotField p.nf s.inletDir_))
        (- s.flowRate_.value db.timeOutputValue / gSum p.magSf)) s.rhoInlet_) := by
  obtain ⟨hfields, hflag⟩ := updateCoeffs_ok_fields p db s s1 h1
  have hup : s1.updated = true := hflag hu
  refine ⟨hup, ?_, fun p2 db2 => updateCoeffs_of_updated p2 db2 s1 hup,
    fun p2 db2 f2 => updateCoeffs_of_updated p2 db2 _ hup, fun p2 db2 => ?_,
    fun hm => ?_, fun hv hn rhop hf => ?_, fun hv hn hf => ?_⟩
  · rw [hup] at hfields; exact hfields
  · rw [updateCoeffs_of_updated p2 db2 s1 hup, h1]
  · rw [updateCoeffs_vol p db s hu hm] at h1
    cases h1
    exact (volField_eq p s.inletDir_ _).symm
  · rw [updateCoeffs_found p db s rhop hu hv hn hf] at h1
    cases h1
    show divField _ rhop = divField _ rhop
    rw [volField_eq]; rfl
  · by_cases hr : s.rhoInlet_ < 0
    · rw [updateCoeffs_noDensity p db s hu hv hn hf hr] at h1
      cases h1
    · rw [updateCoeffs_const p db s hu hv hn hf (not_lt.mp hr)] at h1
      cases h1
      show divScalar _ s.rhoInlet_ = divScalar _ s.rhoInlet_
      rw [volField_eq]; rfl

/-- C9 (amended): rescaling the direction vector `d` of one face by any
`c ≠ 0` (with `n_i & d_i ≠ 0`) leaves the velocity field resolved by
`updateCoeffs` unchanged on that face and on every other: only the
orientation of `d_i` enters, its length is no weighting. -/
theorem updateCoeffs_direction_scale_invariant (p : fvPatch) (db : objectRegistry)
    (s : flowRateDirectedInletVelocityFvPatchVectorField) (i : Nat) (c : scalar)
    (d : vector) (f : face)
    (hd : s.inletDir_[i]? = some d) (hf : p[i]? = some f)
    (hnd : f.nf.dot d ≠ 0) (hc : c ≠ 0) :
    resolved (updateCoeffs p db { s with inletDir_ := s.inletDir_.set i (d.mulS c) })
      = resolved (updateCoeffs p db s) ∧
    faceValue (resolved (updateCoeffs p db
        { s with inletDir_ := s.inletDir_.set i (d.mulS c) })) i
      = faceValue (resolved (updateCoeffs p db s)) i := by
  have _ := hnd
  have _ := hf
  have h := resolved_scale p db s i c d hd hc
  exact ⟨h, by rw [h]⟩

/-- C9 as stated fails: no input with `n_i & d_i ≠ 0` and no scalar `c > 0`,
`c ≠ 1`, makes the velocity resolved on face `i` change when `d_i` is replaced
by `c * d_i`. -/
theorem direction_length_is_no_weighting :
    ¬ ∃ (p : fvPatch) (db : objectRegistry)
        (s : flowRateDirectedInletVelocityFvPatchVectorField) (i : Nat) (c : scalar)
        (d : vector) (f : face),
        s.inletDir_[i]? = some d ∧ p[i]? = some f ∧
        f.nf.dot d ≠ 0 ∧ 0 < c ∧ c ≠ 1 ∧
        faceValue (resolved (updateCoeffs p db
            { s with inletDir_ := s.inletDir_.set i (d.mulS c) })) i
          ≠ faceValue (resolved (updateCoeffs p db s)) i := by
  rintro ⟨p, db, s, i, c, d, f, hd, -, -, hc, -, hne⟩
  exact hne (by rw [resolved_scale p db s i c d hd hc.ne'])

/-! ## Remapping -/

theorem resizeToMap_identity (l : vectorField) (dflt : vector) :
    resizeToMap (identityMap l.length) l dflt = l := by
  apply List.ext_getElem
  · simp [resizeToMap, identityMap]
  · intro i h1 h2
    simp [resizeToMap, identityMap, List.getElem?_eq_getElem h2]

theorem resizeToMap_drop (l : vectorField) (dflt : vector) (k : Nat) (hk : k < l.length) :
    resizeToMap (dropFaceMap l.length k) l dflt = l.eraseIdx k := by
  apply List.ext_getElem
  · simp [resizeToMap, dropFaceMap, List.length_eraseIdx, hk]
  · intro i h1 h2
    have hi : i < l.length - 1 := by simpa [resizeToMap, dropFaceMap] using h1
    rw [List.getElem_eraseIdx]
    simp only [resizeToMap, dropFaceMap, List.map_map, List.getElem_map, List.getElem_range,
      Function.comp_apply, List.getD_eq_getElem?_getD]
    by_cases hlt : i < k
    · have hil : i < l.length := by omega
      simp [hlt, List.getElem?_eq_getElem hil]
    · have hil : i + 1 < l.length := by omega
      simp [hlt, List.getElem?_eq_getElem hil]

/-- C7: remapping the direction field with the identity mapping returns it
entry for entry; remapping a field of length `m ≥ 1` with the mapping that
drops face `k < m` and shifts the rest returns a field of length `m - 1`
holding the retained entries in their order. -/
theorem autoMap_direction_identity_and_drop
    (s : flowRateDirectedInletVelocityFvPatchVectorField) (k : Nat)
    (hk : k < s.inletDir_.length) :
    (autoMap (identityMap s.inletDir_.length) s).inletDir_ = s.inletDir_ ∧
    (autoMap (dropFaceMap s.inletDir_.length k) s).inletDir_.length
      = s.inletDir_.length - 1 ∧
    (autoMap (dropFaceMap s.inletDir_.length k) s).inletDir_ = s.inletDir_.eraseIdx k ∧
    (∀ i, i < k →
      (autoMap (dropFaceMap s.inletDir_.length k) s).inletDir_[i]? = s.inletDir_[i]?) ∧
    (∀ i, k ≤ i →
      (autoMap (dropFaceMap s.inletDir_.length k) s).inletDir_[i]? = s.inletDir_[i + 1]?) := by
  have hd : (autoMap (dropFaceMap s.inletDir_.length k) s).inletDir_ = s.inletDir_.eraseIdx k :=
    resizeToMap_drop s.inletDir_ vector.zero k hk
  refine ⟨resizeToMap_identity s.inletDir_ vector.zero, ?_, hd, fun i hi => ?_,
    fun i hi => ?_⟩
  · rw [hd, List.length_eraseIdx_of_lt hk]
  · rw [hd, List.getElem?_eraseIdx_of_lt _ _ _ hi]
  · rw [hd, List.getElem?_eraseIdx_of_ge _ _ _ hi]

/-! ## Construction from a dictionary and `write` -/

theorem evaluate_vol (p : fvPatch) (db : objectRegistry)
    (s : flowRateDirectedInletVelocityFvPatchVectorField) (hu : s.updated = false)
    (hm : s.volumetric_ = true ∨ s.rhoName_ = "none") :
    evaluate p db s
      = .ok { s with
          value := List.zipWith (faceU (avgU p db s)) s.inletDir_ p, updated := false } := by
  simp only [evaluate, updateCoeffs_vol p db s hu hm]

theorem evaluate_ok (p : fvPatch) (db : objectRegistry)
    (s s1 : flowRateDirectedInletVelocityFvPatchVectorField)
    (h : evaluate p db s = .ok s1) :
    s1 = { s with value := s1.value, updated := false } := by
  unfold evaluate at h
  split at h
  · cases h
  · rename_i s2 h2
    cases h
    have := (updateCoeffs_ok_fields p db s s2 h2).1
    rw [this]

theorem evaluate_error (p : fvPatch) (db : objectRegistry)
    (s : flowRateDirectedInletVelocityFvPatchVectorField) (e : FatalError)
    (h : evaluate p db s = .error e) : e = .noDensity s.rhoName_ ∧ s.volumetric_ = false := by
  unfold evaluate at h
  split at h
  · rename_i e2 h2
    cases h
    have := updateCoeffs_error p db s _ h2
    exact ⟨this.1, this.2.2.1⟩
  · cases h

theorem fromDict_ok (VGREAT : scalar) (p : fvPatch) (db : objectRegistry) (dict : dictionary)
    (s : flowRateDirectedInletVelocityFvPatchVectorField)
    (h : fromDict VGREAT p db dict = .ok s) :
    s.updated = false ∧ s.rhoInlet_ = dict.rhoInlet.getD (-VGREAT) ∧
    dict.inletDirection = some s.inletDir_ ∧
    ((dict.volumetricFlowRate = some s.flowRate_ ∧ s.volumetric_ = true ∧ s.rhoName_ = "rho") ∨
     (dict.volumetricFlowRate = none ∧ dict.massFlowRate = some s.flowRate_ ∧
        s.volumetric_ = false ∧ s.rhoName_ = dict.rho.getD "rho")) ∧
    (∀ v, dict.value = some v → s.value = v) := by
  unfold fromDict at h
  cases hdir : dict.inletDirection with
  | none => simp [hdir] at h
  | some dir =>
    cases hvf : dict.volumetricFlowRate with
    | some f =>
      cases hval : dict.value with
      | some v =>
        simp only [hdir, hvf, hval] at h
        cases h
        simp
      | none =>
        simp only [hdir, hvf, hval] at h
        have := evaluate_ok _ _ _ _ h
        rw [this]
        simp
    | none =>
      cases hmf : dict.massFlowRate with
      | none => simp [hdir, hvf, hmf] at h
      | some f =>
        cases hval : dict.value with
        | some v =>
          simp only [hdir, hvf, hmf, hval] at h
          cases h
          simp
        | none =>
          simp only [hdir, hvf, hmf, hval] at h
          have := evaluate_ok _ _ _ _ h
          rw [this]
          simp


/-- C5 (amended): with the direction field supplied, construction from a
dictionary fails with the fatal configuration error exactly when neither
`volumetricFlowRate` nor `massFlowRate` is present; a dictionary holding
`volumetricFlowRate` is always accepted, also when `massFlowRate` is present
too, and gives the volumetric object that the same dictionary without
`massFlowRate` and `rho` gives; with `massFlowRate` alone every object built
is mass-based, and one is built whenever `value` is supplied. -/
theorem fromDict_flow_rate_keys (VGREAT : scalar) (p : fvPatch) (db : objectRegistry)
    (dict : dictionary) (dir : vectorField) (hdir : dict.inletDirection = some dir) :
    (fromDict VGREAT p db dict = .error .supplyFlowRate ↔
      dict.volumetricFlowRate = none ∧ dict.massFlowRate = none) ∧
    (∀ f, dict.volumetricFlowRate = some f →
      ∃ s, fromDict VGREAT p db dict = .ok s ∧ s.volumetric_ = true ∧ s.flowRate_ = f ∧
        fromDict VGREAT p db { dict with massFlowRate := none, rho := none } = .ok s) ∧
    (∀ f, dict.volumetricFlowRate = none → dict.massFlowRate = some f →
      (∀ s, fromDict VGREAT p db dict = .ok s → s.volumetric_ = false ∧ s.flowRate_ = f) ∧
      (∀ v, dict.value = some v → ∃ s, fromDict VGREAT p db dict = .ok s)) := by
  have hvolOk : ∀ f, dict.volumetricFlowRate = some f →
      ∃ s, fromDict VGREAT p db dict = .ok s ∧ s.volumetric_ = true ∧ s.flowRate_ = f ∧
        fromDict VGREAT p db { dict with massFlowRate := none, rho := none } = .ok s := by
    intro f hvf
    cases hval : dict.value with
    | some v =>
      simp only [fromDict, hdir, hvf, hval]
      exact ⟨_, rfl, rfl, rfl, rfl⟩
    | none =>
      simp only [fromDict, hdir, hvf, hval]
      exact ⟨_, evaluate_vol p db _ rfl (Or.inl rfl), rfl, rfl,
        evaluate_vol p db _ rfl (Or.inl rfl)⟩
  refine ⟨⟨fun h => ?_, fun h => ?_⟩, hvolOk, fun f hvf hmf => ⟨fun s hs => ?_, fun v hv => ?_⟩⟩
  · cases hvf : dict.volumetricFlowRate with
    | some f =>
      obtain ⟨s, hs, -⟩ := hvolOk f hvf
      rw [hs] at h
      cases h
    | none =>
      cases hmf : dict.massFlowRate with
      | none => exact ⟨rfl, rfl⟩
      | some f =>
        exfalso
        cases hval : dict.value with
        | some v =>
          simp only [fromDict, hdir, hvf, hmf, hval] at h
          cases h
        | none =>
          simp only [fromDict, hdir, hvf, hmf, hval] at h
          have := (evaluate_error p db _ _ h).1
          cases this
  · simp only [fromDict, hdir, h.1, h.2]
  · have := fromDict_ok VGREAT p db dict s hs
    rcases this.2.2.2.1 with hv | hm
    · rw [hvf] at hv
      cases hv.1
    · refine ⟨hm.2.2.1, ?_⟩
      have h1 := hm.2.1
      rw [hmf] at h1
      cases h1
      rfl
  · simp only [fromDict, hdir, hvf, hmf, hv]
    exact ⟨_, rfl⟩

/-- C6: for every object built from a dictionary, whatever value field it
holds when written, constructing again from the
entries emitted by `write` succeeds, under any geometry and registry, with
the same mode, flow-rate function, density name, direction field, value field
and flag, and the same `rhoInlet` in mass-based mode (the only mode that reads
it), so every later `updateCoeffs` gives the same velocities or the same
failure; `rho` is emitted only for a mass-based object whose name differs from
`rho`, `rhoInlet` only for one whose value differs from `-VGREAT`, and an
omitted entry is read back as that default. -/
theorem write_fromDict_roundtrip (VGREAT : scalar) (p : fvPatch) (db : objectRegistry)
    (dict : dictionary) (s0 s : flowRateDirectedInletVelocityFvPatchVectorField)
    (h : fromDict VGREAT p db dict = .ok s0) (hs : s = { s0 with value := s.value }) :
    (∃ s2, (∀ p2 db2, fromDict VGREAT p2 db2 (write VGREAT s) = .ok s2) ∧
      s2.volumetric_ = s.volumetric_ ∧ s2.flowRate_ = s.flowRate_ ∧
      s2.rhoName_ = s.rhoName_ ∧ (s.volumetric_ = false → s2.rhoInlet_ = s.rhoInlet_) ∧
      s2.inletDir_ = s.inletDir_ ∧ s2.value = s.value ∧ s2.updated = s.updated ∧
      (s.volumetric_ = false → s2 = s) ∧
      (∀ p2 db2, resolved (updateCoeffs p2 db2 s2) = resolved (updateCoeffs p2 db2 s)) ∧
      ((write VGREAT s).rho = none → s2.rhoName_ = "rho" ∧ s.rhoName_ = "rho") ∧
      ((write VGREAT s).rhoInlet = none → s2.rhoInlet_ = -VGREAT ∧
        (s.volumetric_ = false → s.rhoInlet_ = -VGREAT))) ∧
    (write VGREAT s).rho
      = (if s.volumetric_ = false ∧ s.rhoName_ ≠ "rho" then some s.rhoName_ else none) ∧
    (write VGREAT s).rhoInlet
      = (if s.volumetric_ = false ∧ s.rhoInlet_ ≠ -VGREAT then some s.rhoInlet_ else none) := by
  obtain ⟨hu0, -, -, hmode0, -⟩ := fromDict_ok VGREAT p db dict s0 h
  have hu : s.updated = false := by rw [hs]; exact hu0
  have hnm : s.volumetric_ = true → s.rhoName_ = "rho" := by
    rw [hs]
    intro hv
    rcases hmode0 with hm | hm
    · exact hm.2.2
    · rw [hm.2.2.1] at hv; cases hv
  clear hs h hu0 hmode0
  refine ⟨?_, ?_, ?_⟩
  · cases hv : s.volumetric_ with
    | true =>
      have hname : s.rhoName_ = "rho" := hnm hv
      refine ⟨{ s with rhoInlet_ := -VGREAT }, ?_, hv, rfl, rfl, ?_, rfl, rfl, rfl, ?_, ?_, ?_, ?_⟩
      · intro p2 db2
        cases s
        simp_all [fromDict, write]
      · intro hf; cases hf
      · intro hf; cases hf
      · intro p2 db2
        rw [updateCoeffs_vol p2 db2 s hu (Or.inl hv),
          updateCoeffs_vol p2 db2 { s with rhoInlet_ := -VGREAT } hu (Or.inl hv)]
        rfl
      · intro _; exact ⟨hname, hname⟩
      · intro _; exact ⟨rfl, fun hf => by cases hf⟩
    | false =>
      have hrt : ∀ p2 db2, fromDict VGREAT p2 db2 (write VGREAT s) = .ok s := by
        intro p2 db2
        cases s
        simp only at hv hu
        subst hv hu
        simp only [fromDict, write, Bool.not_false, if_true, Bool.false_eq_true, if_false]
        congr 2
        · split <;> simp_all
        · split <;> simp_all
      refine ⟨s, hrt, hv, rfl, rfl, fun _ => rfl, rfl, rfl, rfl, fun _ => rfl,
        fun _ _ => rfl, ?_, ?_⟩
      · intro hw
        have : s.rhoName_ = "rho" := by
          simp only [write, hv] at hw
          by_contra hne
          simp [hne] at hw
        exact ⟨this, this⟩
      · intro hw
        have : s.rhoInlet_ = -VGREAT := by
          simp only [write, hv] at hw
          by_contra hne
          simp [hne] at hw
        exact ⟨this, fun _ => this⟩
  · cases hv : s.volumetric_ <;> by_cases hn : s.rhoName_ = "rho" <;> simp [write, hv, hn]
  · cases hv : s.volumetric_ <;> by_cases hn : s.rhoInlet_ = -VGREAT <;> simp [write, hv, hn]


/-! ## The theorems at concrete inputs -/

theorem exN_unit : exN.dot exN = 1 := by
  norm_num [exN, vector.dot]

theorem exFlat_area : gSum exFlat.magSf = 5 := by
  norm_num [gSum, fvPatch.magSf, exFlat]

theorem exFlat_normal : ∀ f ∈ exFlat, f.nf = exN := by
  simp [exFlat]

/-- C1 witness: `exVol 6` on the flat patch `exFlat`. -/
theorem updateCoeffs_volumetric_flat_witness :
    ∃ s1, updateCoeffs exFlat exDb (exVol 6) = .ok s1 ∧ s1.value.length = exFlat.length ∧
      (∀ u ∈ s1.value, u = exN.mulS (-6 / gSum exFlat.magSf)) ∧
      (∀ u ∈ s1.value, u.hasMag (|6| / gSum exFlat.magSf)) ∧
      volFlux exFlat s1.value = -6 :=
  updateCoeffs_volumetric_flat exFlat exDb (exVol 6) exN 6 (by simp [exFlat]) exFlat_normal
    exN_unit rfl (by rw [exFlat_area]; norm_num) rfl rfl rfl

/-- C1 as stated fails for an outflow: with `Q = -5` on `exFlat` (total area
5) every premise holds, the velocity written is `exN`, of magnitude 1, and
`Q / totalArea = -1` is not its magnitude. -/
theorem volumetric_magnitude_counterexample :
    exFlat ≠ [] ∧ (∀ f ∈ exFlat, f.nf = exN) ∧ exN.dot exN = 1 ∧
    (exVol (-5)).inletDir_ = List.replicate exFlat.length exN ∧
    0 < gSum exFlat.magSf ∧ (exVol (-5)).flowRate_ = Function1.constant (-5) ∧
    (exVol (-5)).volumetric_ = true ∧
    resolved (updateCoeffs exFlat exDb (exVol (-5))) = .ok [exN, exN] ∧
    ¬ exN.hasMag (-5 / gSum exFlat.magSf) := by
  refine ⟨by simp [exFlat], exFlat_normal, exN_unit, rfl, by rw [exFlat_area]; norm_num,
    rfl, rfl, ?_, ?_⟩
  · simp [resolved, updateCoeffs, exVol, exFlat, exN, dotField, divField, mulScalar, gSum,
      fvPatch.nf, fvPatch.magSf, vector.dot, vector.divS, vector.mulS, Function1.constant,
      exDb]
    norm_num
  · rw [exFlat_area]
    norm_num [vector.hasMag]

/-- C2 witness: `exMass 6` on `exFlat` with the field `rho` uniformly 2. -/
theorem updateCoeffs_mass_flat_witness :
    ∃ s1, updateCoeffs exFlat exDbRho (exMass 6 "rho" (-exVGREAT)) = .ok s1 ∧
      s1.value.length = exFlat.length ∧
      (∀ u ∈ s1.value, u = (exN.mulS (-6 / gSum exFlat.magSf)).divS 2) ∧
      (∀ u ∈ s1.value, u.hasMag (|6| / (gSum exFlat.magSf * 2))) ∧
      massFlux exFlat (List.replicate exFlat.length 2) s1.value = -6 :=
  updateCoeffs_mass_flat exFlat exDbRho (exMass 6 "rho" (-exVGREAT)) exN 6 2
    (by simp [exFlat]) exFlat_normal exN_unit rfl (by rw [exFlat_area]; norm_num) rfl rfl
    (by decide) (by norm_num) rfl rfl

/-- C2 as stated fails for an outflow: with `Q = -10`, `rho = 2` on `exFlat`
every premise holds, the velocity written is `exN`, of magnitude 1, and
`Q / (totalArea * rho) = -1` is not its magnitude. -/
theorem mass_magnitude_counterexample :
    exFlat ≠ [] ∧ (∀ f ∈ exFlat, f.nf = exN) ∧ exN.dot exN = 1 ∧
    (exMass (-10) "rho" (-exVGREAT)).inletDir_ = List.replicate exFlat.length exN ∧
    0 < gSum exFlat.magSf ∧
    (exMass (-10) "rho" (-exVGREAT)).flowRate_ = Function1.constant (-10) ∧
    (exMass (-10) "rho" (-exVGREAT)).volumetric_ = false ∧
    (exMass (-10) "rho" (-exVGREAT)).rhoName_ ≠ "none" ∧
    exDbRho.lookupPatchField (exMass (-10) "rho" (-exVGREAT)).rhoName_
      = some (List.replicate exFlat.length 2) ∧
    resolved (updateCoeffs exFlat exDbRho (exMass (-10) "rho" (-exVGREAT))) = .ok [exN, exN] ∧
    ¬ exN.hasMag (-10 / (gSum exFlat.magSf * 2)) := by
  refine ⟨by simp [exFlat], exFlat_normal, exN_unit, rfl, by rw [exFlat_area]; norm_num,
    rfl, rfl, by decide, rfl, ?_, ?_⟩
  · simp [resolved, updateCoeffs, exMass, exFlat, exN, dotField, divField, mulScalar, gSum,
      fvPatch.nf, fvPatch.magSf, vector.dot, vector.divS, vector.mulS, Function1.constant,
      exDbRho]
    norm_num
  · rw [exFlat_area]
    norm_num [vector.hasMag]

/-- C3 witness: `rhoInlet = 2`, no density field registered. -/
theorem updateCoeffs_fallback_density_witness :
    resolved (updateCoeffs exFlat exDb (exMass 6 "rho" 2))
      = .ok (List.zipWith
          (fun d f =>
            ((d.divS (f.nf.dot d)).mulS (avgU exFlat exDb (exMass 6 "rho" 2))).divS
              (exMass 6 "rho" 2).rhoInlet_)
          (exMass 6 "rho" 2).inletDir_ exFlat) ∧
    (updateCoeffs exFlat exDb (exMass 6 "rho" 2)
        = .error (.noDensity (exMass 6 "rho" 2).rhoName_) ↔
      (exMass 6 "rho" 2).rhoInlet_ < 0) :=
  ⟨((updateCoeffs_fallback_density exFlat exDb (exMass 6 "rho" 2) rfl (by decide) rfl rfl).1
      (by norm_num [exMass])).1,
    (updateCoeffs_fallback_density exFlat exDb (exMass 6 "rho" 2) rfl (by decide) rfl rfl).2.1⟩

/-- C3 as stated fails: the dictionary `exDictNeg` sets `rhoInlet -1`, so the
object built holds a `rhoInlet` that is not the unset sentinel, and yet the
update with the density field absent ends in the missing-density error. -/
theorem set_negative_rhoInlet_counterexample :
    exDictNeg.rhoInlet = some (-1) ∧
    fromDict exVGREAT exFlat exDb exDictNeg = .ok exBuiltNeg ∧
    exBuiltNeg.volumetric_ = false ∧ exBuiltNeg.rhoName_ ≠ "none" ∧
    exDb.lookupPatchField exBuiltNeg.rhoName_ = none ∧
    exBuiltNeg.rhoInlet_ ≠ -exVGREAT ∧
    updateCoeffs exFlat exDb exBuiltNeg = .error (.noDensity "rho") := by
  refine ⟨rfl, rfl, rfl, by decide, rfl, ?_, ?_⟩
  · norm_num [exBuiltNeg, exVGREAT]
  · exact updateCoeffs_noDensity exFlat exDb exBuiltNeg rfl rfl (by decide) rfl
      (by norm_num [exBuiltNeg])

/-- C4 witness: a mass-based object named `none` beside a registry that holds
`rho`, against the volumetric object. -/
theorem updateCoeffs_rho_none_eq_volumetric_witness :
    resolved (updateCoeffs exFlat exDbRho (exMass 6 "none" 2))
      = resolved (updateCoeffs exFlat exDb (exVol 6)) ∧
    resolved (updateCoeffs exFlat exDbRho (exMass 6 "none" 2))
      = .ok (List.zipWith
          (fun d f => (d.divS (f.nf.dot d)).mulS (avgU exFlat exDbRho (exMass 6 "none" 2)))
          (exMass 6 "none" 2).inletDir_ exFlat) :=
  updateCoeffs_rho_none_eq_volumetric exFlat exDbRho exDb (exMass 6 "none" 2) (exVol 6)
    rfl rfl rfl rfl (fun _ => rfl) rfl rfl rfl

/-- C5 witness: the dictionary without flow-rate key is refused. -/
theorem fromDict_flow_rate_keys_witness :
    (fromDict exVGREAT exFlat exDb exDictNone = .error .supplyFlowRate ↔
      exDictNone.volumetricFlowRate = none ∧ exDictNone.massFlowRate = none) :=
  (fromDict_flow_rate_keys exVGREAT exFlat exDb exDictNone [exN, exN] rfl).1

/-- C5 as stated fails: the dictionary `exDictBoth` holds both flow-rate keys
and construction succeeds, giving a volumetric object. -/
theorem both_keys_accepted_counterexample :
    exDictBoth.volumetricFlowRate.isSome = true ∧ exDictBoth.massFlowRate.isSome = true ∧
    fromDict exVGREAT exFlat exDb exDictBoth = .ok exBuiltBoth ∧
    exBuiltBoth.volumetric_ = true := by
  exact ⟨rfl, rfl, rfl, rfl⟩

theorem fromDict_exDictMass : fromDict exVGREAT exFlat exDb exDictMass = .ok exBuiltMass := by
  simp [fromDict, evaluate, updateCoeffs, exDictMass, exBuiltMass, exFlat, exN, exDb,
    dotField, divField, mulScalar, divScalar, gSum, fvPatch.nf, fvPatch.magSf, vector.dot,
    vector.divS, vector.mulS, Function1.constant]
  norm_num

/-- C6 witness: the object built from `exDictMass`, written while it holds the
value field `[exN, exN]`, is read back under any geometry and registry. -/
theorem write_fromDict_roundtrip_witness :
    (∃ s2, ∀ p2 db2, fromDict exVGREAT p2 db2 (write exVGREAT exWritten) = .ok s2) ∧
    (write exVGREAT exWritten).rho
      = (if exWritten.volumetric_ = false ∧ exWritten.rhoName_ ≠ "rho"
          then some exWritten.rhoName_ else none) :=
  ⟨(write_fromDict_roundtrip exVGREAT exFlat exDb exDictMass exBuiltMass exWritten
      fromDict_exDictMass rfl).1.imp (fun _ h2 => h2.1),
    (write_fromDict_roundtrip exVGREAT exFlat exDb exDictMass exBuiltMass exWritten
      fromDict_exDictMass rfl).2.1⟩

/-- C7 witness: dropping face 1 of the three-face direction field. -/
theorem autoMap_direction_identity_and_drop_witness :
    (autoMap (identityMap exThree.inletDir_.length) exThree).inletDir_ = exThree.inletDir_ ∧
    (autoMap (dropFaceMap exThree.inletDir_.length 1) exThree).inletDir_.length
      = exThree.inletDir_.length - 1 ∧
    (autoMap (dropFaceMap exThree.inletDir_.length 1) exThree).inletDir_
      = exThree.inletDir_.eraseIdx 1 :=
  ⟨(autoMap_direction_identity_and_drop exThree 1 (by decide)).1,
    (autoMap_direction_identity_and_drop exThree 1 (by decide)).2.1,
    (autoMap_direction_identity_and_drop exThree 1 (by decide)).2.2.1⟩

theorem updateCoeffs_exVol : updateCoeffs exFlat exDb (exVol 6) = .ok exVolDone := by
  simp [updateCoeffs, exVol, exVolDone, exFlat, exN, exDb, dotField, divField, mulScalar,
    gSum, fvPatch.nf, fvPatch.magSf, vector.dot, vector.divS, vector.mulS,
    Function1.constant]
  norm_num

/-- C8 witness: the second update of `exVol 6`, on another patch beside
another registry. -/
theorem updateCoeffs_idempotent_witness :
    exVolDone.updated = true ∧
    updateCoeffs exBent exDbRho exVolDone = .ok exVolDone ∧
    resolved (updateCoeffs exBent exDbRho exVolDone)
      = resolved (updateCoeffs exFlat exDb (exVol 6)) :=
  ⟨(updateCoeffs_idempotent exFlat exDb (exVol 6) exVolDone rfl updateCoeffs_exVol).1,
    (updateCoeffs_idempotent exFlat exDb (exVol 6) exVolDone rfl updateCoeffs_exVol).2.2.1
      exBent exDbRho,
    (updateCoeffs_idempotent exFlat exDb (exVol 6) exVolDone rfl updateCoeffs_exVol).2.2.2.2.1
      exBent exDbRho⟩

/-- C9 witness: doubling the direction of face 0 of `exSkew` on `exBent`. -/
theorem updateCoeffs_direction_scale_invariant_witness :
    resolved (updateCoeffs exBent exDb
        { exSkew with inletDir_ := exSkew.inletDir_.set 0 (vector.mulS ⟨1, 1, 0⟩ 2) })
      = resolved (updateCoeffs exBent exDb exSkew) :=
  (updateCoeffs_direction_scale_invariant exBent exDb exSkew 0 2 ⟨1, 1, 0⟩ ⟨⟨1, 0, 0⟩, 2⟩
    rfl rfl (by norm_num [vector.dot]) (by norm_num)).1

/-- C10 witness: the oblique directions of `exSkew` on the patch `exBent`. -/
theorem updateCoeffs_flux_any_direction_witness :
    ∃ s1, updateCoeffs exBent exDb exSkew = .ok s1 ∧ s1.value.length = exBent.length ∧
      (∀ i (hp : i < exBent.length) (hv : i < s1.value.length),
        s1.value[i].dot exBent[i].nf
          = - exSkew.flowRate_.value exDb.timeOutputValue / gSum exBent.magSf) ∧
      volFlux exBent s1.value = - exSkew.flowRate_.value exDb.timeOutputValue :=
  (updateCoeffs_flux_any_direction exBent exDb exSkew rfl rfl
    (by norm_num [gSum, fvPatch.magSf, exBent])
    (fun i hp hd => by
      match i, hp, hd with
      | 0, _, _ => norm_num [exBent, exSkew, vector.dot]
      | 1, _, _ => norm_num [exBent, exSkew, vector.dot])).1 (Or.inl rfl)

end Foam
